import Mathlib

/-!
Verification of the distributed database DDL coordination and database-shard
assignment subsystem (Citus `database.c` and `database_sharding.c`).

The embedding follows the C sources closely:
* `citus_internal_database_command` (database.c) is the idempotent replay
  entry point for create/drop-database statements;
* the GUC (grand unified configuration) machinery of PostgreSQL is modelled
  as a value plus a stack of saved values recorded by
  `set_config_option(..., GUC_ACTION_LOCAL, ...)` and unwound by
  `AtEOXact_GUC`;
* the database-shard registry and assignment policy
  (`AssignDatabaseToShard`, `AllowConnectionsOnlyOnNodeGroup`,
  `UpdateDatabaseShard`, ...) are modelled as pure state transformers over a
  registry list and a log of issued commands.
-/

namespace Citus

/-! ## Errors raised via ereport(ERROR, ...) -/

inductive PgError where
  | undefinedDatabase (dbname : String)
  | duplicateDatabase (dbname : String)
  | unsupportedCommandType (tag : Nat)
  | insufficientPrivilege (dbname : String)
deriving Repr, DecidableEq

/-! ## GUC variables with GUC_ACTION_LOCAL save/restore semantics

A boolean GUC variable holds its current value together with a stack of
(nestLevel, savedValue) entries pushed by local `set_config_option` calls.
`AtEOXact_GUC(_, nestLevel)` pops every entry recorded at or above the given
nest level, restoring the saved values in LIFO order.  This models the
PostgreSQL core GUC machinery used by `citus_internal_database_command`.
-/

structure GucVar where
  value : Bool
  saved : List (Nat × Bool)
deriving Repr, DecidableEq

def setConfigLocal (g : GucVar) (nestLevel : Nat) (newValue : Bool) : GucVar :=
  { value := newValue, saved := (nestLevel, g.value) :: g.saved }

def gucUnwind (nestLevel : Nat) (value : Bool) :
    List (Nat × Bool) → Bool × List (Nat × Bool)
  | [] => (value, [])
  | (lvl, old) :: rest =>
    if nestLevel ≤ lvl then gucUnwind nestLevel old rest
    else (value, (lvl, old) :: rest)

def AtEOXact_GUC_var (g : GucVar) (nestLevel : Nat) : GucVar :=
  let r := gucUnwind nestLevel g.value g.saved
  { value := r.1, saved := r.2 }

/-! ## Session state

The catalog of databases is a list of (name, oid) pairs; `OidIsValid`
corresponds to being nonzero.  The two GUC flags are the ones suppressed by
the replay entry point: `citus.enable_ddl_propagation` and
`citus.enable_create_database_propagation`.
-/

structure SessionState where
  gucNestLevel : Nat
  enableDdlPropagation : GucVar
  enableCreateDatabasePropagation : GucVar
  databases : List (String × Nat)
deriving Repr, DecidableEq

def lookupDatabaseOid : List (String × Nat) → String → Option Nat
  | [], _ => none
  | p :: rest, name => if p.1 = name then some p.2 else lookupDatabaseOid rest name

/-- PostgreSQL `get_database_oid`: returns the database oid; when the database
is absent it returns InvalidOid (0) if `missing_ok`, and otherwise raises an
undefined_database error. -/
def get_database_oid (dbs : List (String × Nat)) (dbname : String)
    (missing_ok : Bool) : Except PgError Nat :=
  match lookupDatabaseOid dbs dbname with
  | some oid => .ok oid
  | none =>
    if missing_ok then .ok 0 else .error (.undefinedDatabase dbname)

def maxOid (dbs : List (String × Nat)) : Nat :=
  dbs.foldr (fun p m => max p.2 m) 0

/-- PostgreSQL `createdb`: creates the named database with a fresh oid, or
raises a duplicate-database error if it already exists. -/
def createdb (st : SessionState) (dbname : String) : Except PgError SessionState :=
  match lookupDatabaseOid st.databases dbname with
  | some _ => .error (.duplicateDatabase dbname)
  | none =>
    .ok { st with databases := st.databases ++ [(dbname, maxOid st.databases + 1)] }

def removeDb : List (String × Nat) → String → List (String × Nat)
  | [], _ => []
  | p :: rest, name =>
    if p.1 = name then removeDb rest name else p :: removeDb rest name

/-- PostgreSQL `DropDatabase`: drops the named database, or raises an
undefined_database error if it does not exist. -/
def DropDatabase (st : SessionState) (dbname : String) : Except PgError SessionState :=
  match lookupDatabaseOid st.databases dbname with
  | some _ => .ok { st with databases := removeDb st.databases dbname }
  | none => .error (.undefinedDatabase dbname)

/-! ## Parse trees

The deparser/parser is an external collaborator; the replay entry point
receives text and immediately reparses it via `ParseTreeNode`, so the
embedding takes the parse tree directly.  A statement that is neither a
`CreatedbStmt` nor a `DropdbStmt` is represented by its node tag alone.
-/

inductive PgNode where
  | createdbStmt (dbname : String)
  | dropdbStmt (dbname : String)
  | unsupportedStmt (tag : Nat)
deriving Repr, DecidableEq

/-- Lines 318-346 of database.c: the statement dispatch of
`citus_internal_database_command`, after the two GUC flags have been set
locally to off.  The create branch resolves the name with `missingOk = true`
and only creates when the oid is invalid; the drop branch resolves the name
with `missingOk = false` and only drops when the oid is valid; any other node
tag raises an unsupported-command error. -/
def databaseCommandBody (st1 : SessionState) : PgNode → Except PgError SessionState
  | .createdbStmt dbname =>
    match get_database_oid st1.databases dbname true with
    | .error e => .error e
    | .ok databaseOid =>
      if databaseOid = 0 then createdb st1 dbname else .ok st1
  | .dropdbStmt dbname =>
    match get_database_oid st1.databases dbname false with
    | .error e => .error e
    | .ok databaseOid =>
      if databaseOid ≠ 0 then DropDatabase st1 dbname else .ok st1
  | .unsupportedStmt tag => .error (.unsupportedCommandType tag)

/-- Lines 296-307 of database.c: `NewGUCNestLevel` followed by the two local
`set_config_option(..., "off", ...)` calls that suppress propagation for the
duration of the call. -/
def suppressPropagationGucs (st : SessionState) (saveNestLevel : Nat) : SessionState :=
  { st with
    gucNestLevel := saveNestLevel,
    enableDdlPropagation :=
      setConfigLocal st.enableDdlPropagation saveNestLevel false,
    enableCreateDatabasePropagation :=
      setConfigLocal st.enableCreateDatabasePropagation saveNestLevel false }

/-- Line 349 of database.c: `AtEOXact_GUC(true, saveNestLevel)` unwinds the
local GUC entries recorded at or above `saveNestLevel`; the nest level itself
reverts to its pre-call value. -/
def atEOXactGucState (st : SessionState) (prevNestLevel saveNestLevel : Nat) :
    SessionState :=
  { st with
    gucNestLevel := prevNestLevel,
    enableDdlPropagation := AtEOXact_GUC_var st.enableDdlPropagation saveNestLevel,
    enableCreateDatabasePropagation :=
      AtEOXact_GUC_var st.enableCreateDatabasePropagation saveNestLevel }

/-- Lines 293-352 of database.c: `citus_internal_database_command`.  On the
success path the function itself calls `AtEOXact_GUC(true, saveNestLevel)`;
on an `ereport(ERROR, ...)` path the function longjmps out, so the returned
state is the state at the moment of the error, with the GUC suppression still
in place (unwinding is then the job of transaction abort, see `replayCall`). -/
def citus_internal_database_command (st : SessionState) (parseTree : PgNode) :
    Except PgError Unit × SessionState :=
  let saveNestLevel := st.gucNestLevel + 1
  let st1 := suppressPropagationGucs st saveNestLevel
  match databaseCommandBody st1 parseTree with
  | .ok st2 => (.ok (), atEOXactGucState st2 st.gucNestLevel saveNestLevel)
  | .error e => (.error e, st1)

/-- Modelled PostgreSQL transaction-abort semantics (external to the
repository): when `ereport(ERROR, ...)` escapes the function, the enclosing
transaction aborts, rolling back all catalog mutations of the call and
running `AtEOXact_GUC` from the bottom nest level, which pops every
GUC_ACTION_LOCAL entry. -/
def abortTransaction (pre post : SessionState) : SessionState :=
  { gucNestLevel := pre.gucNestLevel,
    enableDdlPropagation := AtEOXact_GUC_var post.enableDdlPropagation 1,
    enableCreateDatabasePropagation :=
      AtEOXact_GUC_var post.enableCreateDatabasePropagation 1,
    databases := pre.databases }

/-- A full replay call as observed by the session: the entry point itself,
with error escapes resolved by the surrounding transaction abort. -/
def replayCall (st : SessionState) (parseTree : PgNode) :
    Except PgError Unit × SessionState :=
  match citus_internal_database_command st parseTree with
  | (.ok u, st2) => (.ok u, st2)
  | (.error e, st2) => (.error e, abortTransaction st st2)

/-! ## Database shard registry and assignment policy (database_sharding.c)

`citus_catalog.database_shard` rows carry {databaseId, nodeGroupId,
isAvailable}.  The worker node list is the result of
`TargetWorkerSetNodeList(ALL_SHARD_NODES, RowShareLock)`, an external
collaborator, so it is passed in as a parameter; `GetLocalGroupId()` likewise.
`get_database_name` is external catalog access, so the database name is
passed alongside the oid.  Issued remote metadata commands and
connect-privilege commands are recorded in logs so that theorems can speak
about exactly which commands a call issues.
-/

structure WorkerNode where
  workerName : String
  workerPort : Nat
  groupId : Int
deriving Repr, DecidableEq

structure DatabaseShard where
  databaseOid : Nat
  nodeGroupId : Int
  isAvailable : Bool
deriving Repr, DecidableEq

inductive ConnCommandKind where
  | grantConnect
  | revokeConnect
deriving Repr, DecidableEq

/-- A GRANT/REVOKE CONNECT ON DATABASE command as built by
`AllowConnectionsOnlyOnNodeGroup`. -/
structure ConnCommand where
  kind : ConnCommandKind
  databaseName : String
deriving Repr, DecidableEq

/-- How a connect-privilege command is executed: via SPI on the local node
(when the target node's group equals the local group) or by
`SendCommandToWorker` against a remote node's address. -/
inductive Dispatch where
  | localSPI (cmd : ConnCommand)
  | remote (workerName : String) (workerPort : Nat) (cmd : ConnCommand)
deriving Repr, DecidableEq

def Dispatch.cmd : Dispatch → ConnCommand
  | .localSPI c => c
  | .remote _ _ c => c

def Dispatch.isRemote : Dispatch → Bool
  | .localSPI _ => false
  | .remote _ _ _ => true

/-- A metadata-mirroring command sent to metadata-holding workers
(`citus_internal_add_database_shard` / `citus_internal_delete_database_shard`). -/
inductive MetadataCommand where
  | addDatabaseShard (databaseName : String) (nodeGroupId : Int)
  | deleteDatabaseShard (databaseName : String)
deriving Repr, DecidableEq

structure ShardState where
  registry : List DatabaseShard
  metadataCommands : List MetadataCommand
  connCommands : List Dispatch
  reconfigurePgBouncersOnCommit : Bool
deriving Repr, DecidableEq

/-- Lines 255-279: `InsertDatabaseShardAssignmentLocally` forms a tuple with
is_available set to true and inserts it into the local
citus_catalog.database_shard table. -/
def InsertDatabaseShardAssignmentLocally (rows : List DatabaseShard)
    (databaseOid : Nat) (nodeGroupId : Int) : List DatabaseShard :=
  rows ++ [{ databaseOid := databaseOid, nodeGroupId := nodeGroupId,
             isAvailable := true }]

/-- Lines 327-355: `DeleteDatabaseShardByDatabaseIdLocally` scans the primary
key index for the database oid and deletes the (single) matching tuple if
present; a no-op when absent. -/
def DeleteDatabaseShardByDatabaseIdLocally :
    List DatabaseShard → Nat → List DatabaseShard
  | [], _ => []
  | r :: rest, databaseOid =>
    if r.databaseOid = databaseOid then rest
    else r :: DeleteDatabaseShardByDatabaseIdLocally rest databaseOid

/-- Lines 404-434: `GetDatabaseShardByOid` returns the first matching row or
none. -/
def GetDatabaseShardByOid : List DatabaseShard → Nat → Option DatabaseShard
  | [], _ => none
  | r :: rest, databaseOid =>
    if r.databaseOid = databaseOid then some r
    else GetDatabaseShardByOid rest databaseOid

/-- Lines 239-248: local insert, then a remote mirrored insert command to
every metadata-holding node when metadata sync is enabled. -/
def InsertDatabaseShardAssignment (enableMetadataSync : Bool) (st : ShardState)
    (databaseName : String) (databaseOid : Nat) (nodeGroupId : Int) : ShardState :=
  let st1 := { st with
    registry := InsertDatabaseShardAssignmentLocally st.registry databaseOid
      nodeGroupId }
  if enableMetadataSync then
    { st1 with metadataCommands :=
        st1.metadataCommands ++ [.addDatabaseShard databaseName nodeGroupId] }
  else st1

/-- Lines 312-321: local delete, then a remote mirrored delete command when
metadata sync is enabled. -/
def DeleteDatabaseShardByDatabaseId (enableMetadataSync : Bool) (st : ShardState)
    (databaseName : String) (databaseOid : Nat) : ShardState :=
  let st1 := { st with
    registry := DeleteDatabaseShardByDatabaseIdLocally st.registry databaseOid }
  if enableMetadataSync then
    { st1 with metadataCommands :=
        st1.metadataCommands ++ [.deleteDatabaseShard databaseName] }
  else st1

/-- The command built for one worker node in the loop of
`AllowConnectionsOnlyOnNodeGroup` (lines 207-231): GRANT CONNECT when the
node's group equals the assigned group, REVOKE CONNECT otherwise; executed
via local SPI when the node's group equals the local group, otherwise sent to
the worker's address. -/
def dispatchForNode (databaseName : String) (nodeGroupId localGroupId : Int)
    (w : WorkerNode) : Dispatch :=
  let cmd : ConnCommand :=
    { kind := if w.groupId = nodeGroupId then .grantConnect else .revokeConnect,
      databaseName := databaseName }
  if w.groupId = localGroupId then .localSPI cmd
  else .remote w.workerName w.workerPort cmd

/-- Lines 198-232: `AllowConnectionsOnlyOnNodeGroup` iterates over the node
list and issues one connect-privilege command per node. -/
def AllowConnectionsOnlyOnNodeGroup (databaseName : String)
    (nodeGroupId localGroupId : Int) (workerNodes : List WorkerNode) :
    List Dispatch :=
  workerNodes.map (dispatchForNode databaseName nodeGroupId localGroupId)

/-- Lines 176-185 of `AssignDatabaseToShard`: the placement policy.  The
group defaults to the local (coordinator) group; when the node list is
nonempty the node at index `databaseOid mod length` is selected. -/
def selectNodeGroup (localGroupId : Int) (workerNodes : List WorkerNode)
    (databaseOid : Nat) : Int :=
  if h : 0 < workerNodes.length then
    (workerNodes.get ⟨databaseOid % workerNodes.length,
      Nat.mod_lt databaseOid h⟩).groupId
  else localGroupId

/-- Lines 173-191: `AssignDatabaseToShard` selects a node group, persists the
assignment (locally plus mirrored), issues the connect-privilege sweep, and
requests a pgbouncer reconfiguration at commit. -/
def AssignDatabaseToShard (localGroupId : Int) (workerNodes : List WorkerNode)
    (enableMetadataSync : Bool) (st : ShardState) (databaseName : String)
    (databaseOid : Nat) : ShardState :=
  let nodeGroupId := selectNodeGroup localGroupId workerNodes databaseOid
  let st1 := InsertDatabaseShardAssignment enableMetadataSync st databaseName
    databaseOid nodeGroupId
  let sweep := AllowConnectionsOnlyOnNodeGroup databaseName nodeGroupId
    localGroupId workerNodes
  let st2 := { st1 with connCommands := st1.connCommands ++ sweep }
  { st2 with reconfigurePgBouncersOnCommit := true }

/-- Lines 297-305: `UpdateDatabaseShard` deletes the old row, reinserts under
the target group, recomputes connect privileges and requests a pgbouncer
reconfiguration. -/
def UpdateDatabaseShard (localGroupId : Int) (workerNodes : List WorkerNode)
    (enableMetadataSync : Bool) (st : ShardState) (databaseName : String)
    (databaseOid : Nat) (targetNodeGroupId : Int) : ShardState :=
  let st1 := DeleteDatabaseShardByDatabaseId enableMetadataSync st databaseName
    databaseOid
  let st2 := InsertDatabaseShardAssignment enableMetadataSync st1 databaseName
    databaseOid targetNodeGroupId
  let sweep := AllowConnectionsOnlyOnNodeGroup databaseName targetNodeGroupId
    localGroupId workerNodes
  let st3 := { st2 with connCommands := st2.connCommands ++ sweep }
  { st3 with reconfigurePgBouncersOnCommit := true }

/-- Lines 466-487: `citus_internal_add_database_shard` checks database
ownership, inserts locally (no remote mirroring: it is itself the mirroring
target), and requests a pgbouncer reconfiguration. -/
def citus_internal_add_database_shard (ownerOk : Bool) (st : ShardState)
    (databaseName : String) (databaseOid : Nat) (nodeGroupId : Int) :
    Except PgError ShardState :=
  if ownerOk then
    .ok { st with
      registry := InsertDatabaseShardAssignmentLocally st.registry databaseOid
        nodeGroupId,
      reconfigurePgBouncersOnCommit := true }
  else .error (.insufficientPrivilege databaseName)

/-- Lines 513-533: `citus_internal_delete_database_shard` checks database
ownership, deletes locally, and requests a pgbouncer reconfiguration. -/
def citus_internal_delete_database_shard (ownerOk : Bool) (st : ShardState)
    (databaseName : String) (databaseOid : Nat) : Except PgError ShardState :=
  if ownerOk then
    .ok { st with
      registry := DeleteDatabaseShardByDatabaseIdLocally st.registry databaseOid,
      reconfigurePgBouncersOnCommit := true }
  else .error (.insufficientPrivilege databaseName)

/-- The registry-mutating operations of the subsystem, for stating
registry-wide invariants. -/
inductive ShardOp where
  | assign (databaseName : String) (databaseOid : Nat)
  | move (databaseName : String) (databaseOid : Nat) (targetNodeGroupId : Int)
  | internalAdd (databaseName : String) (databaseOid : Nat) (nodeGroupId : Int)
  | internalDelete (databaseName : String) (databaseOid : Nat)
deriving Repr, DecidableEq

def applyShardOp (localGroupId : Int) (workerNodes : List WorkerNode)
    (enableMetadataSync : Bool) (st : ShardState) : ShardOp → ShardState
  | .assign name oid =>
    AssignDatabaseToShard localGroupId workerNodes enableMetadataSync st name oid
  | .move name oid g =>
    UpdateDatabaseShard localGroupId workerNodes enableMetadataSync st name oid g
  | .internalAdd name oid g =>
    match citus_internal_add_database_shard true st name oid g with
    | .ok st2 => st2
    | .error _ => st
  | .internalDelete name oid =>
    match citus_internal_delete_database_shard true st name oid with
    | .ok st2 => st2
    | .error _ => st

/-! ## Control-database delegation (database_sharding.c, lines 65-134) -/

inductive UtilityContext where
  | toplevel
  | other
deriving Repr, DecidableEq

/-- A command execution against the control database as performed by
`ExecuteCommandInControlDatabase`: a dedicated forced-new connection to the
main Citus database, tagged with the identifying application name, over which
the deparsed command runs. -/
structure ControlDbExec where
  forceNewConnection : Bool
  targetDatabase : String
  applicationName : String
  command : PgNode
deriving Repr, DecidableEq

/-- Lines 121-134: `ExecuteCommandInControlDatabase` opens a FORCE_NEW
connection to the control (main Citus) database, sets the marker application
name, and executes the command there. -/
def ExecuteCommandInControlDatabase (controlDatabase : String)
    (command : PgNode) : ControlDbExec :=
  { forceNewConnection := true,
    targetDatabase := controlDatabase,
    applicationName := "citus_database_shard",
    command := command }

/-- Lines 71-100: `PreProcessUtilityInDatabaseShard`.  Returns the list of
commands executed in the control database together with the final value of
`*runPreviousUtilityHook` (true means the local execution path still runs). -/
def PreProcessUtilityInDatabaseShard (enableDatabaseSharding : Bool)
    (enableCreateDatabasePropagation : Bool) (controlDatabase : String)
    (parseTree : PgNode) (context : UtilityContext) :
    List ControlDbExec × Bool :=
  if ¬enableDatabaseSharding ∨ context ≠ .toplevel then ([], true)
  else if enableCreateDatabasePropagation then
    match parseTree with
    | .createdbStmt _ =>
      ([ExecuteCommandInControlDatabase controlDatabase parseTree], false)
    | .dropdbStmt _ =>
      ([ExecuteCommandInControlDatabase controlDatabase parseTree], false)
    | .unsupportedStmt _ => ([], true)
  else ([], true)

/-- Modelled from the spec: the distributed utility hook invokes
`PreProcessUtilityInDatabaseShard` only when the executing session is
connected to a non-control (shard) database; in the control database the
statement follows the normal local path.  The hook itself is not among the
sources. -/
def UtilityHookDelegation (inShardDatabase : Bool)
    (enableDatabaseSharding enableCreateDatabasePropagation : Bool)
    (controlDatabase : String) (parseTree : PgNode)
    (context : UtilityContext) : List ControlDbExec × Bool :=
  if inShardDatabase then
    PreProcessUtilityInDatabaseShard enableDatabaseSharding
      enableCreateDatabasePropagation controlDatabase parseTree context
  else ([], true)

def isCreateOrDropDb : PgNode → Bool
  | .createdbStmt _ => true
  | .dropdbStmt _ => true
  | .unsupportedStmt _ => false

/-- Number of catalog entries for a given database name. -/
def countDb : List (String × Nat) → String → Nat
  | [], _ => 0
  | p :: rest, name => (if p.1 = name then 1 else 0) + countDb rest name

/-! ## Lemmas about the database catalog list -/

theorem lookup_eq_none_iff (dbs : List (String × Nat)) (name : String) :
    lookupDatabaseOid dbs name = none ↔ name ∉ dbs.map Prod.fst := by
  induction dbs with
  | nil => simp [lookupDatabaseOid]
  | cons p rest ih =>
    by_cases h : p.1 = name
    · simp [lookupDatabaseOid, h]
    · have hne : ¬ name = p.1 := fun hn => h hn.symm
      simp only [lookupDatabaseOid, h, if_false, List.map_cons, List.mem_cons,
        not_or]
      rw [ih]
      tauto

theorem countDb_append (xs ys : List (String × Nat)) (name : String) :
    countDb (xs ++ ys) name = countDb xs name + countDb ys name := by
  induction xs with
  | nil => simp [countDb]
  | cons p rest ih => simp [countDb, ih]; omega

theorem countDb_eq_zero_iff (dbs : List (String × Nat)) (name : String) :
    countDb dbs name = 0 ↔ name ∉ dbs.map Prod.fst := by
  induction dbs with
  | nil => simp [countDb]
  | cons p rest ih =>
    by_cases h : p.1 = name
    · simp [countDb, h]
    · have hne : ¬ name = p.1 := fun hn => h hn.symm
      simp only [countDb, h, if_false, Nat.zero_add, List.map_cons,
        List.mem_cons, not_or]
      rw [ih]
      tauto

theorem lookup_append_of_none (xs ys : List (String × Nat)) (name : String)
    (h : lookupDatabaseOid xs name = none) :
    lookupDatabaseOid (xs ++ ys) name = lookupDatabaseOid ys name := by
  induction xs with
  | nil => rfl
  | cons p rest ih =>
    by_cases hp : p.1 = name
    · simp [lookupDatabaseOid, hp] at h
    · simp only [lookupDatabaseOid, hp, if_false, List.cons_append] at h ⊢
      exact ih h

theorem lookup_mem (dbs : List (String × Nat)) (name : String) (oid : Nat)
    (h : lookupDatabaseOid dbs name = some oid) : (name, oid) ∈ dbs := by
  induction dbs with
  | nil => simp [lookupDatabaseOid] at h
  | cons p rest ih =>
    by_cases hp : p.1 = name
    · simp only [lookupDatabaseOid, hp, if_true] at h
      obtain ⟨a, b⟩ := p
      injection h with h2
      subst h2
      subst hp
      exact List.mem_cons_self _ _
    · simp only [lookupDatabaseOid, hp, if_false] at h
      exact List.mem_cons_of_mem _ (ih h)

theorem countDb_le_one_of_nodup (dbs : List (String × Nat)) (name : String)
    (h : (dbs.map Prod.fst).Nodup) : countDb dbs name ≤ 1 := by
  induction dbs with
  | nil => simp [countDb]
  | cons p rest ih =>
    rw [List.map_cons, List.nodup_cons] at h
    by_cases hp : p.1 = name
    · have hz : countDb rest name = 0 := by
        rw [countDb_eq_zero_iff]
        rw [hp] at h
        exact h.1
      simp [countDb, hp, hz]
    · simp [countDb, hp]
      exact ih h.2

theorem countDb_pos_of_lookup_some (dbs : List (String × Nat)) (name : String)
    (oid : Nat) (h : lookupDatabaseOid dbs name = some oid) :
    1 ≤ countDb dbs name := by
  induction dbs with
  | nil => simp [lookupDatabaseOid] at h
  | cons p rest ih =>
    by_cases hp : p.1 = name
    · simp [countDb, hp]
    · simp only [lookupDatabaseOid, hp, if_false] at h
      simp [countDb, hp]
      exact ih h

/-- One create-database replay call: always succeeds, appends the database
when absent, and leaves the catalog unchanged when present.  The hypothesis
that catalog oids are valid (nonzero) reflects that InvalidOid never names an
existing database. -/
theorem create_call_spec (st : SessionState) (name : String)
    (hoid : ∀ p ∈ st.databases, p.2 ≠ 0) :
    (citus_internal_database_command st (.createdbStmt name)).1 = .ok () ∧
    (citus_internal_database_command st (.createdbStmt name)).2.databases =
      (if lookupDatabaseOid st.databases name = none
       then st.databases ++ [(name, maxOid st.databases + 1)]
       else st.databases) := by
  have hdb : (suppressPropagationGucs st (st.gucNestLevel + 1)).databases =
      st.databases := rfl
  cases hlk : lookupDatabaseOid st.databases name with
  | none =>
    simp [citus_internal_database_command, databaseCommandBody,
      get_database_oid, createdb, hdb, hlk, atEOXactGucState,
      suppressPropagationGucs]
  | some oid =>
    have hne : oid ≠ 0 := hoid (name, oid) (lookup_mem _ _ _ hlk)
    simp [citus_internal_database_command, databaseCommandBody,
      get_database_oid, hdb, hlk, hne, atEOXactGucState,
      suppressPropagationGucs]

/-- The statement dispatch never touches the GUC fields: every success path
returns a state whose GUC variables and nest level are those of the input. -/
theorem databaseCommandBody_guc_eq (st1 : SessionState) (node : PgNode)
    (st2 : SessionState) (h : databaseCommandBody st1 node = .ok st2) :
    st2.enableDdlPropagation = st1.enableDdlPropagation ∧
    st2.enableCreateDatabasePropagation = st1.enableCreateDatabasePropagation := by
  cases node with
  | createdbStmt name =>
    cases hlk : lookupDatabaseOid st1.databases name with
    | none =>
      simp [databaseCommandBody, get_database_oid, hlk, createdb] at h
      rw [← h]
      exact ⟨rfl, rfl⟩
    | some oid =>
      simp only [databaseCommandBody, get_database_oid, hlk, createdb] at h
      by_cases hz : oid = 0
      · simp [hz, hlk] at h
      · simp [hz] at h
        rw [← h]
        exact ⟨rfl, rfl⟩
  | dropdbStmt name =>
    cases hlk : lookupDatabaseOid st1.databases name with
    | none => simp [databaseCommandBody, get_database_oid, hlk] at h
    | some oid =>
      simp only [databaseCommandBody, get_database_oid, hlk, DropDatabase] at h
      by_cases hz : oid = 0
      · simp [hz] at h
        rw [← h]
        exact ⟨rfl, rfl⟩
      · simp [hz, hlk] at h
        rw [← h]
        exact ⟨rfl, rfl⟩
  | unsupportedStmt tag => simp [databaseCommandBody] at h

/-- A fixed session state used to evaluate the replay entry point on concrete
inputs: one existing database named "otherdb", both propagation flags on. -/
def replayExampleState : SessionState :=
  { gucNestLevel := 0,
    enableDdlPropagation := { value := true, saved := [] },
    enableCreateDatabasePropagation := { value := true, saved := [] },
    databases := [("otherdb", 5)] }

/-- C1: replaying a drop-database statement while the named database is
absent raises an undefined_database error instead of the documented silent
no-op: the drop branch of `citus_internal_database_command` resolves the name
with `missingOk = false`, so `get_database_oid` itself errors and the
`OidIsValid` no-op guard below it is unreachable. -/
theorem drop_absent_database_raises_undefined_database :
    (citus_internal_database_command replayExampleState
      (PgNode.dropdbStmt "db1")).1 =
      Except.error (PgError.undefinedDatabase "db1") := by
  rfl

/-- C4: replaying any statement that is neither create-database nor
drop-database fails with the unsupported-command error carrying the node tag,
and the database catalog is not mutated, even before transaction abort. -/
theorem replay_unsupported_statement_errors_without_mutation
    (st : SessionState) (tag : Nat) :
    (citus_internal_database_command st (PgNode.unsupportedStmt tag)).1 =
      Except.error (PgError.unsupportedCommandType tag) ∧
    (citus_internal_database_command st (PgNode.unsupportedStmt tag)).2.databases =
      st.databases := by
  constructor <;> rfl

/-- C3: a replay call leaves both propagation flags at their pre-call values
on every exit path: the success path runs the function's own
`AtEOXact_GUC(true, saveNestLevel)`, and the error path is unwound by the
surrounding transaction abort.  The hypotheses say the session has no pending
local GUC changes when the call starts. -/
theorem replay_restores_propagation_gucs (st : SessionState) (parseTree : PgNode)
    (h1 : st.enableDdlPropagation.saved = [])
    (h2 : st.enableCreateDatabasePropagation.saved = []) :
    (replayCall st parseTree).2.enableDdlPropagation.value =
      st.enableDdlPropagation.value ∧
    (replayCall st parseTree).2.enableCreateDatabasePropagation.value =
      st.enableCreateDatabasePropagation.value := by
  cases hb : databaseCommandBody (suppressPropagationGucs st (st.gucNestLevel + 1))
      parseTree with
  | ok st2 =>
    obtain ⟨e1, e2⟩ := databaseCommandBody_guc_eq _ _ _ hb
    simp only [suppressPropagationGucs, setConfigLocal, h1, h2] at hb e1 e2
    simp only [replayCall, citus_internal_database_command,
      suppressPropagationGucs, setConfigLocal, h1, h2, hb]
    simp only [atEOXactGucState, AtEOXact_GUC_var, e1, e2]
    simp [gucUnwind]
  | error e =>
    have hle : 1 ≤ st.gucNestLevel + 1 := Nat.succ_le_succ (Nat.zero_le _)
    simp only [suppressPropagationGucs, setConfigLocal, h1, h2] at hb
    simp only [replayCall, citus_internal_database_command,
      suppressPropagationGucs, setConfigLocal, h1, h2, hb,
      abortTransaction, AtEOXact_GUC_var]
    simp [gucUnwind, hle]

/-- C2: replaying a create-database statement succeeds whether or not the
database exists; it creates the database exactly when absent, leaves the
catalog untouched when present, and replaying the identical statement twice
leaves exactly one catalog entry for the name, with no error on the second
call.  The hypotheses say the catalog is well formed: unique names and valid
(nonzero) oids. -/
theorem create_database_replay_idempotent (st : SessionState) (name : String)
    (hnodup : (st.databases.map Prod.fst).Nodup)
    (hoid : ∀ p ∈ st.databases, p.2 ≠ 0) :
    (citus_internal_database_command st (.createdbStmt name)).1 = .ok () ∧
    (lookupDatabaseOid st.databases name = none →
      countDb (citus_internal_database_command st
        (.createdbStmt name)).2.databases name = 1) ∧
    (lookupDatabaseOid st.databases name ≠ none →
      (citus_internal_database_command st (.createdbStmt name)).2.databases =
        st.databases) ∧
    (citus_internal_database_command
      (citus_internal_database_command st (.createdbStmt name)).2
      (.createdbStmt name)).1 = .ok () ∧
    countDb (citus_internal_database_command
      (citus_internal_database_command st (.createdbStmt name)).2
      (.createdbStmt name)).2.databases name = 1 := by
  obtain ⟨h1, hdb1⟩ := create_call_spec st name hoid
  cases hlk : lookupDatabaseOid st.databases name with
  | none =>
    rw [hlk, if_pos rfl] at hdb1
    have hcount0 : countDb st.databases name = 0 :=
      (countDb_eq_zero_iff _ _).2 ((lookup_eq_none_iff _ _).1 hlk)
    have hoid1 : ∀ p ∈ (citus_internal_database_command st
        (.createdbStmt name)).2.databases, p.2 ≠ 0 := by
      rw [hdb1]
      intro p hp
      rcases List.mem_append.1 hp with hmem | hmem
      · exact hoid p hmem
      · rcases List.mem_singleton.1 hmem with rfl
        exact Nat.succ_ne_zero _
    obtain ⟨h2, hdb2⟩ := create_call_spec _ name hoid1
    have hlk1 : lookupDatabaseOid (citus_internal_database_command st
        (.createdbStmt name)).2.databases name =
        some (maxOid st.databases + 1) := by
      rw [hdb1, lookup_append_of_none _ _ _ hlk]
      simp [lookupDatabaseOid]
    rw [hlk1] at hdb2
    simp only [reduceCtorEq, if_false] at hdb2
    have hc1 : countDb (citus_internal_database_command st
        (.createdbStmt name)).2.databases name = 1 := by
      rw [hdb1, countDb_append, hcount0]
      simp [countDb]
    refine ⟨h1, fun _ => hc1, ?_, h2, ?_⟩
    · intro hcontra
      exact absurd rfl hcontra
    · rw [hdb2]
      exact hc1
  | some oid =>
    rw [hlk] at hdb1
    simp only [reduceCtorEq, if_false] at hdb1
    have hoid1 : ∀ p ∈ (citus_internal_database_command st
        (.createdbStmt name)).2.databases, p.2 ≠ 0 := by
      rw [hdb1]
      exact hoid
    obtain ⟨h2, hdb2⟩ := create_call_spec _ name hoid1
    rw [hdb1, hlk] at hdb2
    simp only [reduceCtorEq, if_false] at hdb2
    have hc : countDb st.databases name = 1 :=
      Nat.le_antisymm (countDb_le_one_of_nodup _ _ hnodup)
        (countDb_pos_of_lookup_some _ _ _ hlk)
    refine ⟨h1, ?_, fun _ => hdb1, h2, ?_⟩
    · intro hno
      exact Option.noConfusion hno
    · rw [hdb2]
      exact hc

/-- Witness for C2: the concrete example state has a well-formed catalog and
replaying CREATE DATABASE "db1" twice yields exactly one entry and no error. -/
theorem create_database_replay_idempotent_witness :
    ((replayExampleState.databases.map Prod.fst).Nodup ∧
     ∀ p ∈ replayExampleState.databases, p.2 ≠ 0) ∧
    ((citus_internal_database_command replayExampleState
        (.createdbStmt "db1")).1 = .ok () ∧
     (lookupDatabaseOid replayExampleState.databases "db1" = none →
       countDb (citus_internal_database_command replayExampleState
         (.createdbStmt "db1")).2.databases "db1" = 1) ∧
     (lookupDatabaseOid replayExampleState.databases "db1" ≠ none →
       (citus_internal_database_command replayExampleState
         (.createdbStmt "db1")).2.databases = replayExampleState.databases) ∧
     (citus_internal_database_command
       (citus_internal_database_command replayExampleState
         (.createdbStmt "db1")).2
       (.createdbStmt "db1")).1 = .ok () ∧
     countDb (citus_internal_database_command
       (citus_internal_database_command replayExampleState
         (.createdbStmt "db1")).2
       (.createdbStmt "db1")).2.databases "db1" = 1) :=
  ⟨⟨by decide, by decide⟩,
   create_database_replay_idempotent replayExampleState "db1" (by decide)
     (by decide)⟩

/-- Witness for C3 at a concrete session state and an error-path input. -/
theorem replay_restores_propagation_gucs_witness :
    (replayExampleState.enableDdlPropagation.saved = [] ∧
     replayExampleState.enableCreateDatabasePropagation.saved = []) ∧
    ((replayCall replayExampleState (PgNode.unsupportedStmt 99)).2.enableDdlPropagation.value =
      replayExampleState.enableDdlPropagation.value ∧
     (replayCall replayExampleState (PgNode.unsupportedStmt 99)).2.enableCreateDatabasePropagation.value =
      replayExampleState.enableCreateDatabasePropagation.value) :=
  ⟨⟨rfl, rfl⟩,
   replay_restores_propagation_gucs replayExampleState (PgNode.unsupportedStmt 99)
     rfl rfl⟩

/-! ## Lemmas about the shard registry and the privilege sweep -/

/-- The connect-privilege command built for a node, projected to its
GRANT/REVOKE payload. -/
theorem dispatchForNode_cmd (databaseName : String)
    (nodeGroupId localGroupId : Int) (w : WorkerNode) :
    (dispatchForNode databaseName nodeGroupId localGroupId w).cmd =
      { kind := if w.groupId = nodeGroupId then ConnCommandKind.grantConnect
                else ConnCommandKind.revokeConnect,
        databaseName := databaseName } := by
  unfold dispatchForNode
  by_cases h : w.groupId = localGroupId <;> simp [h, Dispatch.cmd]

theorem dispatchForNode_kind_iff (databaseName : String)
    (nodeGroupId localGroupId : Int) (w : WorkerNode) :
    (dispatchForNode databaseName nodeGroupId localGroupId w).cmd.kind =
      ConnCommandKind.grantConnect ↔ w.groupId = nodeGroupId := by
  rw [dispatchForNode_cmd]
  by_cases h : w.groupId = nodeGroupId <;> simp [h]

theorem assign_registry_eq (localGroupId : Int) (workerNodes : List WorkerNode)
    (enableMetadataSync : Bool) (st : ShardState) (databaseName : String)
    (databaseOid : Nat) :
    (AssignDatabaseToShard localGroupId workerNodes enableMetadataSync st
      databaseName databaseOid).registry =
      st.registry ++
        [⟨databaseOid, selectNodeGroup localGroupId workerNodes databaseOid,
          true⟩] := by
  cases enableMetadataSync <;> rfl

theorem assign_connCommands_eq (localGroupId : Int)
    (workerNodes : List WorkerNode) (enableMetadataSync : Bool)
    (st : ShardState) (databaseName : String) (databaseOid : Nat) :
    (AssignDatabaseToShard localGroupId workerNodes enableMetadataSync st
      databaseName databaseOid).connCommands =
      st.connCommands ++ AllowConnectionsOnlyOnNodeGroup databaseName
        (selectNodeGroup localGroupId workerNodes databaseOid) localGroupId
        workerNodes := by
  cases enableMetadataSync <;> rfl

theorem update_registry_eq (localGroupId : Int) (workerNodes : List WorkerNode)
    (enableMetadataSync : Bool) (st : ShardState) (databaseName : String)
    (databaseOid : Nat) (targetNodeGroupId : Int) :
    (UpdateDatabaseShard localGroupId workerNodes enableMetadataSync st
      databaseName databaseOid targetNodeGroupId).registry =
      DeleteDatabaseShardByDatabaseIdLocally st.registry databaseOid ++
        [⟨databaseOid, targetNodeGroupId, true⟩] := by
  cases enableMetadataSync <;> rfl

theorem update_connCommands_eq (localGroupId : Int)
    (workerNodes : List WorkerNode) (enableMetadataSync : Bool)
    (st : ShardState) (databaseName : String) (databaseOid : Nat)
    (targetNodeGroupId : Int) :
    (UpdateDatabaseShard localGroupId workerNodes enableMetadataSync st
      databaseName databaseOid targetNodeGroupId).connCommands =
      st.connCommands ++ AllowConnectionsOnlyOnNodeGroup databaseName
        targetNodeGroupId localGroupId workerNodes := by
  cases enableMetadataSync <;> rfl

/-- The registry rows whose database oid matches. -/
def shardRowsFor (rows : List DatabaseShard) (databaseOid : Nat) :
    List DatabaseShard :=
  rows.filter (fun r => r.databaseOid == databaseOid)

theorem shardRowsFor_append (xs ys : List DatabaseShard) (databaseOid : Nat) :
    shardRowsFor (xs ++ ys) databaseOid =
      shardRowsFor xs databaseOid ++ shardRowsFor ys databaseOid :=
  List.filter_append ..

/-- Deleting the first matching row empties the matching set when the
registry holds at most one matching row (the primary-key uniqueness of
citus_catalog.database_shard). -/
theorem shardRowsFor_delete (rows : List DatabaseShard) (databaseOid : Nat)
    (h : (shardRowsFor rows databaseOid).length ≤ 1) :
    shardRowsFor (DeleteDatabaseShardByDatabaseIdLocally rows databaseOid)
      databaseOid = [] := by
  induction rows with
  | nil => rfl
  | cons r rest ih =>
    by_cases hr : r.databaseOid = databaseOid
    · simp only [DeleteDatabaseShardByDatabaseIdLocally, hr, if_true]
      simp only [shardRowsFor, List.filter_cons, hr, beq_self_eq_true,
        if_true, List.length_cons] at h
      have hzero : (shardRowsFor rest databaseOid).length = 0 := by
        simp only [shardRowsFor]
        omega
      exact List.length_eq_zero.mp hzero
    · simp only [DeleteDatabaseShardByDatabaseIdLocally, hr, if_false]
      simp only [shardRowsFor, List.filter_cons] at h ⊢
      have hbeq : (r.databaseOid == databaseOid) = false := by
        simp [hr]
      rw [hbeq] at h ⊢
      simp only [Bool.false_eq_true, if_false] at h ⊢
      exact ih h

theorem mem_delete_subset (rows : List DatabaseShard) (databaseOid : Nat)
    (r : DatabaseShard)
    (h : r ∈ DeleteDatabaseShardByDatabaseIdLocally rows databaseOid) :
    r ∈ rows := by
  induction rows with
  | nil => exact absurd h (List.not_mem_nil r)
  | cons x rest ih =>
    by_cases hx : x.databaseOid = databaseOid
    · simp only [DeleteDatabaseShardByDatabaseIdLocally, hx, if_true] at h
      exact List.mem_cons_of_mem _ h
    · simp only [DeleteDatabaseShardByDatabaseIdLocally, hx, if_false] at h
      rcases List.mem_cons.1 h with h1 | h1
      · exact h1 ▸ List.mem_cons_self _ _
      · exact List.mem_cons_of_mem _ (ih h1)

/-! ## Example data for concrete witnesses -/

def workerNodesExample : List WorkerNode :=
  [⟨"w10", 5432, 10⟩, ⟨"w20", 5432, 20⟩, ⟨"w30", 5432, 30⟩]

def coordinatorOnlyNodes : List WorkerNode := [⟨"coord", 5432, 7⟩]

def emptyShardState : ShardState := ⟨[], [], [], false⟩

def moveExampleState : ShardState := ⟨[⟨42, 3, true⟩], [], [], false⟩

/-- C5: the placement policy.  With an empty registered node list the row is
inserted under the local (coordinator) group; with a nonempty list it is
inserted under the group of the node at index `databaseOid mod length`. -/
theorem assign_database_policy (localGroupId : Int)
    (workerNodes : List WorkerNode) (enableMetadataSync : Bool)
    (st : ShardState) (databaseName : String) (databaseOid : Nat) :
    (workerNodes = [] →
      (AssignDatabaseToShard localGroupId workerNodes enableMetadataSync st
        databaseName databaseOid).registry =
        st.registry ++ [⟨databaseOid, localGroupId, true⟩]) ∧
    ∀ h : workerNodes ≠ [],
      (AssignDatabaseToShard localGroupId workerNodes enableMetadataSync st
        databaseName databaseOid).registry =
        st.registry ++
          [⟨databaseOid,
            (workerNodes.get ⟨databaseOid % workerNodes.length,
              Nat.mod_lt databaseOid (List.length_pos.mpr h)⟩).groupId,
            true⟩] := by
  constructor
  · intro hnil
    subst hnil
    rw [assign_registry_eq]
    rfl
  · intro h
    rw [assign_registry_eq]
    unfold selectNodeGroup
    rw [dif_pos (List.length_pos.mpr h)]

/-- Witness for C5, matching spec Scenario B: oid 7 against the three worker
groups [10, 20, 30] hashes to index 1, so the row is inserted with group 20. -/
theorem assign_database_policy_witness :
    workerNodesExample ≠ [] ∧
    (AssignDatabaseToShard 0 workerNodesExample false emptyShardState "appdb"
      7).registry =
      emptyShardState.registry ++
        [⟨7,
          (workerNodesExample.get ⟨7 % workerNodesExample.length,
            Nat.mod_lt 7 (List.length_pos.mpr (by decide))⟩).groupId,
          true⟩] :=
  ⟨by decide,
   (assign_database_policy 0 workerNodesExample false emptyShardState "appdb"
     7).2 (by decide)⟩

/-- C6: the privilege sweep issues exactly one command per registered node;
the command for a node is GRANT CONNECT precisely when the node's group
equals the assigned group and REVOKE CONNECT otherwise, always naming the
assigned database; and nothing else is issued. -/
theorem allow_connections_grant_iff (databaseName : String)
    (nodeGroupId localGroupId : Int) (workerNodes : List WorkerNode) :
    AllowConnectionsOnlyOnNodeGroup databaseName nodeGroupId localGroupId
      workerNodes =
      workerNodes.map (dispatchForNode databaseName nodeGroupId localGroupId) ∧
    (∀ w ∈ workerNodes,
      dispatchForNode databaseName nodeGroupId localGroupId w ∈
        AllowConnectionsOnlyOnNodeGroup databaseName nodeGroupId localGroupId
          workerNodes ∧
      ((dispatchForNode databaseName nodeGroupId localGroupId w).cmd.kind =
          ConnCommandKind.grantConnect ↔ w.groupId = nodeGroupId) ∧
      (dispatchForNode databaseName nodeGroupId localGroupId
        w).cmd.databaseName = databaseName) ∧
    ∀ d ∈ AllowConnectionsOnlyOnNodeGroup databaseName nodeGroupId localGroupId
        workerNodes,
      ∃ w ∈ workerNodes,
        d = dispatchForNode databaseName nodeGroupId localGroupId w := by
  refine ⟨rfl, ?_, ?_⟩
  · intro w hw
    refine ⟨List.mem_map_of_mem _ hw, dispatchForNode_kind_iff _ _ _ _, ?_⟩
    rw [dispatchForNode_cmd]
  · intro d hd
    rcases List.mem_map.1 hd with ⟨w, hw, rfl⟩
    exact ⟨w, hw, rfl⟩

/-- Witness for C6 at the group-20 node of the example cluster. -/
theorem allow_connections_grant_iff_witness :
    (⟨"w20", 5432, 20⟩ : WorkerNode) ∈ workerNodesExample ∧
    ((dispatchForNode "appdb" 20 0 ⟨"w20", 5432, 20⟩).cmd.kind =
      ConnCommandKind.grantConnect ↔
      (⟨"w20", 5432, 20⟩ : WorkerNode).groupId = 20) :=
  ⟨by decide,
   ((allow_connections_grant_iff "appdb" 20 0 workerNodesExample).2.1 _
     (by decide)).2.1⟩

/-- C7: assignment when no worker node groups are registered (the registered
node list holds only entries of the coordinator's own group, the coordinator
itself among them): the row is inserted under the coordinator's group, a
CONNECT grant is executed locally via SPI, and this call issues no remote
command, in particular no remote revoke. -/
theorem assign_with_only_coordinator_group (localGroupId : Int)
    (workerNodes : List WorkerNode) (enableMetadataSync : Bool)
    (st : ShardState) (databaseName : String) (databaseOid : Nat)
    (hall : ∀ w ∈ workerNodes, w.groupId = localGroupId)
    (hne : workerNodes ≠ []) :
    (AssignDatabaseToShard localGroupId workerNodes enableMetadataSync st
      databaseName databaseOid).registry =
      st.registry ++ [⟨databaseOid, localGroupId, true⟩] ∧
    (AssignDatabaseToShard localGroupId workerNodes enableMetadataSync st
      databaseName databaseOid).connCommands =
      st.connCommands ++ workerNodes.map (fun _ =>
        Dispatch.localSPI ⟨ConnCommandKind.grantConnect, databaseName⟩) ∧
    Dispatch.localSPI ⟨ConnCommandKind.grantConnect, databaseName⟩ ∈
      (AssignDatabaseToShard localGroupId workerNodes enableMetadataSync st
        databaseName databaseOid).connCommands ∧
    ∀ d ∈ (AssignDatabaseToShard localGroupId workerNodes enableMetadataSync st
        databaseName databaseOid).connCommands,
      d ∈ st.connCommands ∨
        d = Dispatch.localSPI ⟨ConnCommandKind.grantConnect, databaseName⟩ := by
  have hpos : 0 < workerNodes.length := List.length_pos.mpr hne
  have hsel : selectNodeGroup localGroupId workerNodes databaseOid =
      localGroupId := by
    unfold selectNodeGroup
    rw [dif_pos hpos]
    exact hall _ (List.get_mem _ _ _)
  have hmap : AllowConnectionsOnlyOnNodeGroup databaseName localGroupId
      localGroupId workerNodes = workerNodes.map (fun _ =>
        Dispatch.localSPI ⟨ConnCommandKind.grantConnect, databaseName⟩) := by
    unfold AllowConnectionsOnlyOnNodeGroup
    apply List.map_congr_left
    intro w hw
    unfold dispatchForNode
    simp [hall w hw]
  have hreg := assign_registry_eq localGroupId workerNodes enableMetadataSync
    st databaseName databaseOid
  rw [hsel] at hreg
  have hcc := assign_connCommands_eq localGroupId workerNodes
    enableMetadataSync st databaseName databaseOid
  rw [hsel, hmap] at hcc
  refine ⟨hreg, hcc, ?_, ?_⟩
  · obtain ⟨w0, hw0⟩ := List.exists_mem_of_ne_nil _ hne
    rw [hcc]
    exact List.mem_append_right _ (List.mem_map.2 ⟨w0, hw0, rfl⟩)
  · intro d hd
    rw [hcc] at hd
    rcases List.mem_append.1 hd with h1 | h1
    · exact Or.inl h1
    · rcases List.mem_map.1 h1 with ⟨w, hw, rfl⟩
      exact Or.inr rfl

/-- Witness for C7: only the coordinator's node (group 7) is registered. -/
theorem assign_with_only_coordinator_group_witness :
    ((∀ w ∈ coordinatorOnlyNodes, w.groupId = 7) ∧
      coordinatorOnlyNodes ≠ []) ∧
    (AssignDatabaseToShard 7 coordinatorOnlyNodes false emptyShardState "appdb"
      42).registry = emptyShardState.registry ++ [⟨42, 7, true⟩] ∧
    Dispatch.localSPI ⟨ConnCommandKind.grantConnect, "appdb"⟩ ∈
      (AssignDatabaseToShard 7 coordinatorOnlyNodes false emptyShardState
        "appdb" 42).connCommands :=
  ⟨⟨by decide, by decide⟩,
   (assign_with_only_coordinator_group 7 coordinatorOnlyNodes false
     emptyShardState "appdb" 42 (by decide) (by decide)).1,
   (assign_with_only_coordinator_group 7 coordinatorOnlyNodes false
     emptyShardState "appdb" 42 (by decide) (by decide)).2.2.1⟩

/-- C8: moving a database shard to a new group leaves exactly one registry
row for the database, carrying the target group, and issues the full
privilege sweep for the target group, whose per-node command is GRANT iff the
node's group is the target group.  The hypothesis is the primary-key
uniqueness of the registry for this database oid. -/
theorem update_database_shard_move_semantics (localGroupId : Int)
    (workerNodes : List WorkerNode) (enableMetadataSync : Bool)
    (st : ShardState) (databaseName : String) (databaseOid : Nat)
    (targetNodeGroupId : Int)
    (huniq : (shardRowsFor st.registry databaseOid).length ≤ 1) :
    shardRowsFor (UpdateDatabaseShard localGroupId workerNodes
      enableMetadataSync st databaseName databaseOid
      targetNodeGroupId).registry databaseOid =
      [⟨databaseOid, targetNodeGroupId, true⟩] ∧
    (UpdateDatabaseShard localGroupId workerNodes enableMetadataSync st
      databaseName databaseOid targetNodeGroupId).connCommands =
      st.connCommands ++ AllowConnectionsOnlyOnNodeGroup databaseName
        targetNodeGroupId localGroupId workerNodes ∧
    ∀ w ∈ workerNodes,
      ((dispatchForNode databaseName targetNodeGroupId localGroupId
        w).cmd.kind = ConnCommandKind.grantConnect ↔
        w.groupId = targetNodeGroupId) := by
  refine ⟨?_,
    update_connCommands_eq localGroupId workerNodes enableMetadataSync st
      databaseName databaseOid targetNodeGroupId,
    fun w _ => dispatchForNode_kind_iff _ _ _ _⟩
  rw [update_registry_eq, shardRowsFor_append,
    shardRowsFor_delete _ _ huniq]
  simp [shardRowsFor]

/-- Witness for C8: the example registry holds one row assigning database 42
to group 3; moving it to group 9 leaves exactly the row (42, 9, true). -/
theorem update_database_shard_move_semantics_witness :
    (shardRowsFor moveExampleState.registry 42).length ≤ 1 ∧
    shardRowsFor (UpdateDatabaseShard 0 workerNodesExample false
      moveExampleState "appdb" 42 9).registry 42 = [⟨42, 9, true⟩] :=
  ⟨by decide,
   (update_database_shard_move_semantics 0 workerNodesExample false
     moveExampleState "appdb" 42 9 (by decide)).1⟩

/-- C10: every row present after any registry-mutating operation of the
subsystem either was already present or carries isAvailable = true; no
operation writes isAvailable = false or updates the field of an existing
row. -/
theorem registry_rows_inserted_available (localGroupId : Int)
    (workerNodes : List WorkerNode) (enableMetadataSync : Bool)
    (st : ShardState) (op : ShardOp) :
    ∀ r ∈ (applyShardOp localGroupId workerNodes enableMetadataSync st
        op).registry,
      r ∈ st.registry ∨ r.isAvailable = true := by
  intro r hr
  cases op with
  | assign name oid =>
    simp only [applyShardOp] at hr
    rw [assign_registry_eq] at hr
    rcases List.mem_append.1 hr with h1 | h1
    · exact Or.inl h1
    · rcases List.mem_singleton.1 h1 with rfl
      exact Or.inr rfl
  | move name oid g =>
    simp only [applyShardOp] at hr
    rw [update_registry_eq] at hr
    rcases List.mem_append.1 hr with h1 | h1
    · exact Or.inl (mem_delete_subset _ _ _ h1)
    · rcases List.mem_singleton.1 h1 with rfl
      exact Or.inr rfl
  | internalAdd name oid g =>
    simp only [applyShardOp, citus_internal_add_database_shard, if_true,
      InsertDatabaseShardAssignmentLocally] at hr
    rcases List.mem_append.1 hr with h1 | h1
    · exact Or.inl h1
    · rcases List.mem_singleton.1 h1 with rfl
      exact Or.inr rfl
  | internalDelete name oid =>
    simp only [applyShardOp, citus_internal_delete_database_shard,
      if_true] at hr
    exact Or.inl (mem_delete_subset _ _ _ hr)

/-- Witness for C10: the internal mirroring UDF inserts the row (7, 3, true),
which indeed carries isAvailable = true. -/
theorem registry_rows_inserted_available_witness :
    (⟨7, 3, true⟩ : DatabaseShard) ∈
      (applyShardOp 0 [] false emptyShardState
        (ShardOp.internalAdd "appdb" 7 3)).registry ∧
    ((⟨7, 3, true⟩ : DatabaseShard) ∈ emptyShardState.registry ∨
      (⟨7, 3, true⟩ : DatabaseShard).isAvailable = true) :=
  ⟨by decide,
   registry_rows_inserted_available 0 [] false emptyShardState
     (ShardOp.internalAdd "appdb" 7 3) _ (by decide)⟩

/-- Counterexample for C9: per-database sharding enabled, session in a shard
database, top-level CREATE DATABASE, but create-database propagation
disabled: the delegator issues no control-database command and the statement
still runs locally, contradicting delegation conditioned on sharding and
shard-database alone. -/
theorem delegator_skips_create_without_create_propagation :
    UtilityHookDelegation true true false "citus" (PgNode.createdbStmt "db1")
      UtilityContext.toplevel = ([], true) := by
  rfl

/-- C9 (amended): for a create- or drop-database statement, the delegator
deparses the statement and executes it in the control database over a
dedicated forced-new tagged connection while suppressing the local execution
path exactly when per-database sharding is enabled, create-database
propagation is enabled, the session is in a non-control database and the
statement is top-level; in every other case it issues nothing and lets the
local path run. -/
theorem delegation_iff_propagation_enabled (inShardDatabase : Bool)
    (enableDatabaseSharding enableCreateDatabasePropagation : Bool)
    (controlDatabase : String) (parseTree : PgNode) (context : UtilityContext)
    (hkind : isCreateOrDropDb parseTree = true) :
    UtilityHookDelegation inShardDatabase enableDatabaseSharding
      enableCreateDatabasePropagation controlDatabase parseTree context =
      if inShardDatabase = true ∧ enableDatabaseSharding = true ∧
          enableCreateDatabasePropagation = true ∧
          context = UtilityContext.toplevel
      then ([ExecuteCommandInControlDatabase controlDatabase parseTree], false)
      else ([], true) := by
  cases parseTree with
  | createdbStmt dbname =>
    cases inShardDatabase <;> cases enableDatabaseSharding <;>
      cases enableCreateDatabasePropagation <;> cases context <;>
      simp [UtilityHookDelegation, PreProcessUtilityInDatabaseShard]
  | dropdbStmt dbname =>
    cases inShardDatabase <;> cases enableDatabaseSharding <;>
      cases enableCreateDatabasePropagation <;> cases context <;>
      simp [UtilityHookDelegation, PreProcessUtilityInDatabaseShard]
  | unsupportedStmt tag => simp [isCreateOrDropDb] at hkind

/-- Witness for the amended C9 on a concrete delegated CREATE DATABASE. -/
theorem delegation_iff_propagation_enabled_witness :
    isCreateOrDropDb (PgNode.createdbStmt "db1") = true ∧
    UtilityHookDelegation true true true "citus" (PgNode.createdbStmt "db1")
      UtilityContext.toplevel =
      (if (true : Bool) = true ∧ (true : Bool) = true ∧ (true : Bool) = true ∧
          UtilityContext.toplevel = UtilityContext.toplevel
       then ([ExecuteCommandInControlDatabase "citus"
          (PgNode.createdbStmt "db1")], false)
       else ([], true)) :=
  ⟨rfl,
   delegation_iff_propagation_enabled true true true "citus"
     (PgNode.createdbStmt "db1") UtilityContext.toplevel rfl⟩

end Citus
